import Mathlib

/-!
Shallow embedding of the job-status polling machinery of the VTF frontend
(`src/App.tsx`, `src/components/ProcessInvestigation.tsx`,
`src/components/ResultsGrid.tsx`, `src/context/InvestigationContext.tsx`,
`src/api/vtfApi.ts`).

The API layer (`vtfApi.ts`) is a passthrough: each `check…Status` call
resolves with the server's `StatusResponse` (status drawn from
`'completed' | 'not_started' | 'running' | 'failed'`, optional `error`
string) or rejects with a transport error.  A poller is a `setInterval`
loop: each tick issues one status request and the callback either calls
`clearInterval` (halting the loop, optionally fetching results once) or
falls through (the interval keeps running).  We model a poller run over
the list of responses the successive ticks observe; result fetches are
counted, not themselves modelled as fallible (the claims under study
concern the status-polling loop).
-/

namespace VTF

/-- Job status as declared by `StatusResponse.status` in `src/api/vtfApi.ts`. -/
inductive JobStatus where
  | not_started
  | running
  | completed
  | failed
  deriving DecidableEq, Repr

/-- The body of a resolved status response (`StatusResponse` in
`src/api/vtfApi.ts`): a status and an optional server-supplied `error`
string. -/
structure StatusResponse where
  status : JobStatus
  error : Option String
  deriving DecidableEq, Repr

/-- What one polling tick observes for a single-job status request: the
request either rejects (a transport error; `some message` when the thrown
value is an `Error` carrying a message, `none` otherwise) or resolves with
a `StatusResponse`. -/
inductive Tick where
  | rejected (message : Option String)
  | ok (response : StatusResponse)
  deriving DecidableEq, Repr

/-- What one batch polling tick observes for the aggregate status request
(`checkAllStatus`): a rejection, or the `plugins` map of
`AllStatusResponse` — a finite map from plugin name to status, modelled as
an association list. -/
inductive BatchTick where
  | rejected (message : Option String)
  | ok (plugins : List (String × JobStatus))
  deriving DecidableEq, Repr

/-- What one tick's callback does: fall through (the interval keeps
running) or `clearInterval` with `fetches` automatic result fetches and a
final outcome. -/
inductive StepResult (ρ : Type) where
  | keepPolling
  | halt (fetches : Nat) (outcome : ρ)
  deriving DecidableEq, Repr

/-- Number of result fetches a step performs. -/
def StepResult.fetchCount {ρ : Type} : StepResult ρ → Nat
  | .keepPolling => 0
  | .halt f _ => f

/-- Observable footprint of one poller run over a finite trace of ticks:
how many status requests were issued, how many automatic result fetches
happened, and the outcome (`none` while the loop is still polling at the
end of the trace). -/
structure RunTrace (ρ : Type) where
  statusRequests : Nat
  resultFetches : Nat
  outcome : Option ρ

/-- The `setInterval` polling loop: each tick issues one status request;
a `keepPolling` step leaves the interval running for the next tick and a
`halt` step is a `clearInterval` — no later tick of the trace is ever
looked at. -/
def runPoller {τ ρ : Type} (step : τ → StepResult ρ) : List τ → RunTrace ρ
  | [] => { statusRequests := 0, resultFetches := 0, outcome := none }
  | t :: ts =>
    match step t with
    | .keepPolling =>
      let rest := runPoller step ts
      { statusRequests := rest.statusRequests + 1
        resultFetches := rest.resultFetches
        outcome := rest.outcome }
    | .halt fetches out =>
      { statusRequests := 1, resultFetches := fetches, outcome := some out }

/-- JavaScript `a || b` for an optional string `a` and a string default:
the default is used when `a` is `undefined` or the empty string (both
falsy). -/
def orElseJs (a : Option String) (b : String) : String :=
  match a with
  | some s => if s = "" then b else s
  | none => b

/-- JavaScript `s.split('.').pop()`: the last dot-separated segment of a
plugin name (the whole name when it has no dot). -/
def lastSegment (s : String) : String :=
  (s.splitOn ".").getLastD ""

/-- A status is terminal exactly when it is `completed` or `failed`
(`App.tsx` l. 92). -/
def isTerminal (s : JobStatus) : Bool :=
  s == JobStatus.completed || s == JobStatus.failed

/-- Outcome of the two single-plugin `App` pollers: results fetched and
shown (`setResults`; `setAppState('results')`), or an error banner
(`setError`; `setAppState('error')`). -/
inductive SingleOutcome where
  | resultsShown
  | errorShown (message : String)
  deriving DecidableEq, Repr

/-- One tick of the current single-plugin polling loop (`App.tsx`
ll. 117–138): on `completed`, clear the interval and fetch the results
once; on `failed`, clear the interval and show
`Plugin {last segment} selhal: {error || 'Neznámá chyba'}`; any other
status falls through; a rejected request clears the interval and shows
`err instanceof Error ? err.message : 'Chyba při kontrole stavu'`. -/
def singleStep (selectedPlugin : String) : Tick → StepResult SingleOutcome
  | .rejected m => .halt 0 (.errorShown (m.getD "Chyba při kontrole stavu"))
  | .ok r =>
    match r.status with
    | .completed => .halt 1 .resultsShown
    | .failed =>
      .halt 0 (.errorShown
        ("Plugin " ++ lastSegment selectedPlugin ++ " selhal: "
          ++ orElseJs r.error "Neznámá chyba"))
    | .running => .keepPolling
    | .not_started => .keepPolling

/-- One tick of the second (legacy) single-plugin polling loop (`App.tsx`
ll. 437–454): only `completed` and a rejected request clear the interval —
there is no `failed` branch, so a `failed` status falls through and the
loop keeps polling. -/
def legacyStep : Tick → StepResult SingleOutcome
  | .rejected m => .halt 0 (.errorShown (m.getD "Chyba při kontrole stavu"))
  | .ok r =>
    match r.status with
    | .completed => .halt 1 .resultsShown
    | _ => .keepPolling

/-- Outcome of the per-PID poller (`handleRunForPid`): the `PerPidResult`
entry written for the plugin — `completed` with fetched data, or `failed`
carrying the stored optional error string. -/
inductive PidOutcome where
  | completed
  | failed (error : Option String)
  deriving DecidableEq, Repr

/-- One tick of the per-PID polling loop
(`ProcessInvestigation.tsx` ll. 86–110): on `completed`, clear the interval,
fetch once and record `completed`; on `failed`, clear the interval and
record `failed` with `error: status.error`; otherwise fall through; the
`catch` clears the interval and records `failed` with the fixed string
`'Status check failed'` (the rejection's own message is discarded). -/
def pidStep : Tick → StepResult PidOutcome
  | .rejected _ => .halt 0 (.failed (some "Status check failed"))
  | .ok r =>
    match r.status with
    | .completed => .halt 1 .completed
    | .failed => .halt 0 (.failed r.error)
    | .running => .keepPolling
    | .not_started => .keepPolling

/-- The message the per-PID detail view displays for a failed run
(`ProcessInvestigation.tsx` l. 565: `result.error || 'Plugin selhal.'`). -/
def pidFailureDisplay (error : Option String) : String :=
  orElseJs error "Plugin selhal."

/-- Status the batch poller ascribes to a selected plugin given the
aggregate response map (`App.tsx` l. 86:
`statusResponse.plugins[p] || 'not_started'` — a plugin absent from the
map defaults to `not_started`). -/
def memberStatus (resp : List (String × JobStatus)) (p : String) : JobStatus :=
  (List.lookup p resp).getD JobStatus.not_started

/-- Entry of the `BatchProgress` array built on each batch tick. -/
structure BatchProgressEntry where
  plugin : String
  status : JobStatus
  deriving DecidableEq, Repr

/-- The `newProgress` array built on each batch tick (`App.tsx`
ll. 85–88): one entry per selected plugin, in the order the caller
supplied the plugin list. -/
def batchProgress (selectedPlugins : List String)
    (resp : List (String × JobStatus)) : List BatchProgressEntry :=
  selectedPlugins.map (fun p => { plugin := p, status := memberStatus resp p })

/-- The batch `allDone` flag (`App.tsx` l. 92): every member's status is
terminal. -/
def allDone (selectedPlugins : List String)
    (resp : List (String × JobStatus)) : Bool :=
  (batchProgress selectedPlugins resp).all (fun e => isTerminal e.status)

/-- The batch `firstCompleted` selection (`App.tsx` l. 95): the first
entry of `newProgress` whose status is `completed`. -/
def firstCompleted (selectedPlugins : List String)
    (resp : List (String × JobStatus)) : Option BatchProgressEntry :=
  (batchProgress selectedPlugins resp).find? (fun e => e.status == JobStatus.completed)

/-- Number of `completed` members of the batch progress
(`App.tsx` l. 267: `batchProgress.filter(p => p.status === 'completed').length`). -/
def completedCount (selectedPlugins : List String)
    (resp : List (String × JobStatus)) : Nat :=
  ((batchProgress selectedPlugins resp).filter
    (fun e => e.status == JobStatus.completed)).length

/-- Outcome of the batch poller: the first completed member's results
fetched and shown, or an error banner. -/
inductive BatchOutcome where
  | resultsShown (plugin : String)
  | errorShown (message : String)
  deriving DecidableEq, Repr

/-- One tick of the batch polling loop (`App.tsx` ll. 82–111): build
`newProgress`; when every member is terminal, clear the interval and
either fetch the first completed member's results once or, when no member
completed, show `'Všechny pluginy selhaly.'`; otherwise fall through; a
rejected request clears the interval and shows
`err instanceof Error ? err.message : 'Chyba při kontrole stavu'`. -/
def batchStep (selectedPlugins : List String) : BatchTick → StepResult BatchOutcome
  | .rejected m => .halt 0 (.errorShown (m.getD "Chyba při kontrole stavu"))
  | .ok resp =>
    if allDone selectedPlugins resp then
      match firstCompleted selectedPlugins resp with
      | some entry => .halt 1 (.resultsShown entry.plugin)
      | none => .halt 0 (.errorShown "Všechny pluginy selhaly.")
    else .keepPolling

/-- The current single-plugin poller of `App.tsx` (ll. 117–138), run over
a trace of observed ticks. -/
def runSingle (selectedPlugin : String) (ticks : List Tick) : RunTrace SingleOutcome :=
  runPoller (singleStep selectedPlugin) ticks

/-- The legacy single-plugin poller of `App.tsx` (ll. 437–454), run over a
trace of observed ticks. -/
def runSingleLegacy (ticks : List Tick) : RunTrace SingleOutcome :=
  runPoller legacyStep ticks

/-- The per-PID poller of `handleRunForPid`
(`ProcessInvestigation.tsx` ll. 86–110), run over a trace of observed
ticks. -/
def runPidPoll (ticks : List Tick) : RunTrace PidOutcome :=
  runPoller pidStep ticks

/-- The batch poller of `App.tsx` (ll. 82–111), run over a trace of
observed aggregate ticks. -/
def runBatch (selectedPlugins : List String) (ticks : List BatchTick) :
    RunTrace BatchOutcome :=
  runPoller (batchStep selectedPlugins) ticks

/-- A tick that keeps every single-job poller polling: a resolved response
whose status is not terminal. -/
def inProgressTick : Tick → Bool
  | .rejected _ => false
  | .ok r => !(isTerminal r.status)

/-- A batch tick that keeps the batch poller polling: a resolved aggregate
response under which not every selected plugin is terminal. -/
def batchStillRunning (selectedPlugins : List String) : BatchTick → Bool
  | .rejected _ => false
  | .ok resp => !(allDone selectedPlugins resp)

/-! ### Result presentation: column derivation (`ResultsGrid.tsx`,
`ProcessInvestigation.tsx`) -/

/-- A result row as delivered in the JSON payload: ordered key/value
pairs (`Object.keys` enumerates the keys in this order). -/
abbrev Row := List (String × String)

/-- JavaScript `Object.keys(row)`. -/
def rowKeys (r : Row) : List String := r.map Prod.fst

/-- The `field` list of `columnDefs` in `ResultsGrid.tsx` ll. 27–42:
empty for empty data, otherwise the keys of the first row with the
Volatility-internal `__children` key filtered out (each surviving key
becomes one column). -/
def resultsGridColumnFields (data : List Row) : List String :=
  match data with
  | [] => []
  | firstRow :: _ => (rowKeys firstRow).filter (fun key => key != "__children")

/-- The `columns` list of `PerPidPluginView` in
`ProcessInvestigation.tsx` l. 583: the keys of the first row with
`__children` and every underscore-prefixed key filtered out (the view
returns earlier when the data is empty). -/
def perPidColumnKeys (data : List Row) : List String :=
  match data with
  | [] => []
  | firstRow :: _ =>
    (rowKeys firstRow).filter (fun k => k != "__children" && !(k.startsWith "_"))

/-! ### Optional-feature handlers (`App.tsx` `loadProjects`,
`InvestigationContext.tsx` `refreshTrackedPids`, `ResultsGrid.tsx`
`handleCellClicked`) -/

/-- What one fallible feature handler does to its feature state: the new
state, and the UI error it raises (`none` when it raises none). -/
structure FeatureUpdate (σ : Type) where
  newState : σ
  uiError : Option String
  deriving Repr

/-- The server-computed correlation payload (`CorrelationResponse` in
`vtfApi.ts`); only its identity matters here. -/
structure CorrelationResponse where
  pid : Nat
  deriving DecidableEq, Repr

/-- The effect of `loadProjects` (`App.tsx` ll. 45–57) on the project
list: a resolved request replaces the list; a rejected one logs to the
console only, raises no UI error, and sets the list to `[]`
(`setProjects([])`). -/
def loadProjects (previousProjects : List String)
    (response : Except (Option String) (List String)) :
    FeatureUpdate (List String) :=
  match response with
  | .ok projectsData => { newState := projectsData, uiError := none }
  | .error _ => { newState := [], uiError := none }

/-- The effect of `loadPlugins` (`App.tsx` ll. 66–74), for contrast with
the optional features: a rejected request raises a UI error
(`setError`; `setAppState('error')`) and leaves the plugin list alone. -/
def loadPlugins (previousPlugins : List String)
    (response : Except (Option String) (List String)) :
    FeatureUpdate (List String) :=
  match response with
  | .ok pluginsData => { newState := pluginsData, uiError := none }
  | .error e =>
    { newState := previousPlugins
      uiError := some (e.getD "Chyba při načítání pluginů") }

/-- The effect of `refreshTrackedPids` (`InvestigationContext.tsx`
ll. 38–49) on the tracked-PID list: a resolved request replaces the list;
a rejected one keeps the current list and raises no error. -/
def refreshTrackedPids (previousPids : List Nat)
    (response : Except (Option String) (List Nat)) :
    FeatureUpdate (List Nat) :=
  match response with
  | .ok pids => { newState := pids, uiError := none }
  | .error _ => { newState := previousPids, uiError := none }

/-- The effect of the correlation lookup in `handleCellClicked`
(`ResultsGrid.tsx` ll. 56–73) on the correlation panel: a resolved
request shows the result; a rejected one raises no error and clears the
panel (`setCorrelation(null)`). -/
def handleCellClicked (previousCorrelation : Option CorrelationResponse)
    (response : Except (Option String) CorrelationResponse) :
    FeatureUpdate (Option CorrelationResponse) :=
  match response with
  | .ok result => { newState := some result, uiError := none }
  | .error _ => { newState := none, uiError := none }

/-! ### Generic facts about the polling loop -/

theorem runPoller_cons_keep {τ ρ : Type} (step : τ → StepResult ρ) (t : τ)
    (ts : List τ) (h : step t = StepResult.keepPolling) :
    runPoller step (t :: ts) =
      { statusRequests := (runPoller step ts).statusRequests + 1
        resultFetches := (runPoller step ts).resultFetches
        outcome := (runPoller step ts).outcome } := by
  simp only [runPoller, h]

theorem runPoller_cons_halt {τ ρ : Type} (step : τ → StepResult ρ) (t : τ)
    (ts : List τ) (f : Nat) (o : ρ) (h : step t = StepResult.halt f o) :
    runPoller step (t :: ts) =
      { statusRequests := 1, resultFetches := f, outcome := some o } := by
  simp only [runPoller, h]

/-- Once a tick's callback calls `clearInterval`, the remaining ticks of
the trace are never looked at. -/
theorem runPoller_stops_after_halt {τ ρ : Type} (step : τ → StepResult ρ)
    (t : τ) (f : Nat) (o : ρ) (h : step t = StepResult.halt f o)
    (pre post : List τ) :
    runPoller step (pre ++ t :: post) = runPoller step (pre ++ [t]) := by
  induction pre with
  | nil =>
    simp only [List.nil_append]
    rw [runPoller_cons_halt step t post f o h, runPoller_cons_halt step t [] f o h]
  | cons a pre ih =>
    cases ha : step a with
    | keepPolling =>
      simp only [List.cons_append]
      rw [runPoller_cons_keep step a _ ha, runPoller_cons_keep step a _ ha, ih]
    | halt f' o' =>
      simp only [List.cons_append]
      rw [runPoller_cons_halt step a _ f' o' ha, runPoller_cons_halt step a _ f' o' ha]

/-- A prefix of fall-through ticks only adds status requests. -/
theorem runPoller_keep_prefix {τ ρ : Type} (step : τ → StepResult ρ)
    (pre ts : List τ) (h : ∀ t ∈ pre, step t = StepResult.keepPolling) :
    runPoller step (pre ++ ts) =
      { statusRequests := pre.length + (runPoller step ts).statusRequests
        resultFetches := (runPoller step ts).resultFetches
        outcome := (runPoller step ts).outcome } := by
  induction pre with
  | nil => simp
  | cons a pre ih =>
    have ha : step a = StepResult.keepPolling := h a (List.mem_cons_self a pre)
    simp only [List.cons_append]
    rw [runPoller_cons_keep step a _ ha,
      ih (fun t ht => h t (List.mem_cons_of_mem a ht))]
    simp only [List.length_cons]
    congr 1
    omega

/-- A run whose decisive tick follows a prefix of fall-through ticks:
`pre.length + 1` status requests, the decisive tick's fetches, its
outcome, and nothing from the rest of the trace. -/
theorem runPoller_decides {τ ρ : Type} (step : τ → StepResult ρ)
    (pre post : List τ) (t : τ) (f : Nat) (o : ρ)
    (hpre : ∀ x ∈ pre, step x = StepResult.keepPolling)
    (ht : step t = StepResult.halt f o) :
    runPoller step (pre ++ t :: post) =
      { statusRequests := pre.length + 1, resultFetches := f, outcome := some o } := by
  rw [runPoller_stops_after_halt step t f o ht pre post,
    runPoller_keep_prefix step pre [t] hpre,
    runPoller_cons_halt step t [] f o ht]

/-- A trace of fall-through ticks resolves nothing: one status request per
tick, no fetch, no outcome. -/
theorem runPoller_all_keep {τ ρ : Type} (step : τ → StepResult ρ)
    (ticks : List τ) (h : ∀ t ∈ ticks, step t = StepResult.keepPolling) :
    runPoller step ticks =
      { statusRequests := ticks.length, resultFetches := 0, outcome := none } := by
  induction ticks with
  | nil => rfl
  | cons a ts ih =>
    rw [runPoller_cons_keep step a ts (h a (List.mem_cons_self a ts)),
      ih (fun t ht => h t (List.mem_cons_of_mem a ht))]
    simp

/-- When every step fetches at most once, a whole run fetches at most
once: the loop halts at its first decisive tick. -/
theorem runPoller_fetches_le_one {τ ρ : Type} (step : τ → StepResult ρ)
    (ticks : List τ) (h : ∀ t, (step t).fetchCount ≤ 1) :
    (runPoller step ticks).resultFetches ≤ 1 := by
  induction ticks with
  | nil => exact Nat.zero_le 1
  | cons a ts ih =>
    cases ha : step a with
    | keepPolling => rw [runPoller_cons_keep step a ts ha]; exact ih
    | halt f o =>
      rw [runPoller_cons_halt step a ts f o ha]
      have := h a
      rw [ha] at this
      exact this

/-! ### Facts about the concrete step functions -/

/-- A resolved, non-terminal status observation leaves each single-job
poller polling. -/
theorem inProgress_keep (p : String) (t : Tick) (h : inProgressTick t = true) :
    singleStep p t = StepResult.keepPolling ∧
      legacyStep t = StepResult.keepPolling ∧
      pidStep t = StepResult.keepPolling := by
  cases t with
  | rejected m => simp [inProgressTick] at h
  | ok r =>
    cases hr : r.status <;>
      simp [inProgressTick, isTerminal, hr] at h ⊢ <;>
      simp [singleStep, legacyStep, pidStep, hr]

/-- An aggregate response under which not every member is terminal leaves
the batch poller polling. -/
theorem batchStillRunning_keep (ps : List String) (t : BatchTick)
    (h : batchStillRunning ps t = true) :
    batchStep ps t = StepResult.keepPolling := by
  cases t with
  | rejected m => simp [batchStillRunning] at h
  | ok resp =>
    simp only [batchStillRunning, Bool.not_eq_true'] at h
    simp [batchStep, h]

/-- One non-terminal member (in particular, one defaulted to
`not_started`) falsifies `allDone`. -/
theorem allDone_false_of_member (ps : List String)
    (resp : List (String × JobStatus)) (q : String) (hq : q ∈ ps)
    (h : isTerminal (memberStatus resp q) = false) :
    allDone ps resp = false := by
  rw [Bool.eq_false_iff]
  intro hall
  rw [allDone, List.all_eq_true] at hall
  have hmem : (⟨q, memberStatus resp q⟩ : BatchProgressEntry) ∈ batchProgress ps resp := by
    rw [batchProgress]
    exact List.mem_map.mpr ⟨q, hq, rfl⟩
  have := hall _ hmem
  rw [h] at this
  exact Bool.false_ne_true this

/-- The batch has zero `completed` members exactly when `firstCompleted`
finds none. -/
theorem completedCount_zero_iff (ps : List String)
    (resp : List (String × JobStatus)) :
    completedCount ps resp = 0 ↔ firstCompleted ps resp = none := by
  rw [completedCount, firstCompleted, List.length_eq_zero,
    List.filter_eq_nil_iff, List.find?_eq_none]

/-- When some selected plugin is reported `completed`, `firstCompleted`
returns the first such plugin in the order the caller supplied the list:
the list splits around the chosen plugin with no completed member before
it. -/
theorem firstCompleted_first_in_order (ps : List String)
    (resp : List (String × JobStatus)) (q : String) (hq : q ∈ ps)
    (hc : memberStatus resp q = JobStatus.completed) :
    ∃ chosen ps₁ ps₂,
      firstCompleted ps resp = some ⟨chosen, memberStatus resp chosen⟩ ∧
      memberStatus resp chosen = JobStatus.completed ∧
      ps = ps₁ ++ chosen :: ps₂ ∧
      ∀ p ∈ ps₁, memberStatus resp p ≠ JobStatus.completed := by
  induction ps with
  | nil => exact absurd hq (List.not_mem_nil q)
  | cons a ps ih =>
    by_cases ha : memberStatus resp a = JobStatus.completed
    · refine ⟨a, [], ps, ?_, ha, rfl, by intro p hp; exact absurd hp (List.not_mem_nil p)⟩
      rw [firstCompleted, batchProgress, List.map_cons, List.find?_cons_of_pos]
      simp [ha]
    · have hq' : q ∈ ps := by
        rcases List.mem_cons.mp hq with h | h
        · exact absurd (h ▸ hc) ha
        · exact h
      obtain ⟨chosen, ps₁, ps₂, hfind, hcc, hsplit, hnone⟩ := ih hq'
      refine ⟨chosen, a :: ps₁, ps₂, ?_, hcc, by rw [hsplit, List.cons_append], ?_⟩
      · rw [firstCompleted, batchProgress, List.map_cons, List.find?_cons_of_neg]
        · rw [firstCompleted, batchProgress] at hfind
          exact hfind
        · simp [ha]
      · intro p hp
        rcases List.mem_cons.mp hp with h | h
        · rw [h]; exact ha
        · exact hnone p h

/-! ### The claims -/

/-- C1 (counterexample): the legacy single-plugin polling loop of
`App.tsx` (ll. 437–454) has no `failed` branch, so after observing a
terminal `failed` response it issues a further status request: over a
trace whose first observation is `failed`, two status requests are
issued and the run never resolves. -/
theorem legacy_poller_polls_after_failed :
    runSingleLegacy
        [Tick.ok ⟨JobStatus.failed, some "volatility exited 1"⟩,
          Tick.ok ⟨JobStatus.running, none⟩] =
      { statusRequests := 2, resultFetches := 0, outcome := none } := rfl

/-- C1 (amended): the current `App` single-plugin poller and the per-PID
poller issue no status request after a `completed` or `failed`
observation (the run over any longer trace equals the run that ends at
the terminal observation); the legacy `App` variant is only guaranteed
this for `completed` — it has no `failed` branch and keeps polling after
a `failed` observation. -/
theorem pollers_stop_after_terminal_observation (p : String)
    (pre post : List Tick) (r : StatusResponse)
    (hterm : r.status = JobStatus.completed ∨ r.status = JobStatus.failed) :
    runSingle p (pre ++ Tick.ok r :: post) = runSingle p (pre ++ [Tick.ok r]) ∧
    runPidPoll (pre ++ Tick.ok r :: post) = runPidPoll (pre ++ [Tick.ok r]) ∧
    (r.status = JobStatus.completed →
      runSingleLegacy (pre ++ Tick.ok r :: post) =
        runSingleLegacy (pre ++ [Tick.ok r])) := by
  rcases hterm with h | h
  · have hs : singleStep p (Tick.ok r) = StepResult.halt 1 SingleOutcome.resultsShown := by
      simp [singleStep, h]
    have hp : pidStep (Tick.ok r) = StepResult.halt 1 PidOutcome.completed := by
      simp [pidStep, h]
    have hl : legacyStep (Tick.ok r) = StepResult.halt 1 SingleOutcome.resultsShown := by
      simp [legacyStep, h]
    exact ⟨runPoller_stops_after_halt _ _ _ _ hs pre post,
      runPoller_stops_after_halt _ _ _ _ hp pre post,
      fun _ => runPoller_stops_after_halt _ _ _ _ hl pre post⟩
  · have hs : singleStep p (Tick.ok r) = StepResult.halt 0
        (SingleOutcome.errorShown
          ("Plugin " ++ lastSegment p ++ " selhal: "
            ++ orElseJs r.error "Neznámá chyba")) := by
      simp [singleStep, h]
    have hp : pidStep (Tick.ok r) = StepResult.halt 0 (PidOutcome.failed r.error) := by
      simp [pidStep, h]
    refine ⟨runPoller_stops_after_halt _ _ _ _ hs pre post,
      runPoller_stops_after_halt _ _ _ _ hp pre post, fun hc => absurd (h ▸ hc) ?_⟩
    simp

/-- C1 (witness): the amended theorem at a concrete run — one `running`
tick, then a `failed` observation, then a further tick that is never
requested. -/
theorem pollers_stop_after_terminal_observation_witness :
    runSingle "windows.pslist.PsList"
        ([Tick.ok ⟨JobStatus.running, none⟩] ++
          Tick.ok ⟨JobStatus.failed, some "volatility exited 1"⟩ ::
            [Tick.ok ⟨JobStatus.running, none⟩]) =
      runSingle "windows.pslist.PsList"
        ([Tick.ok ⟨JobStatus.running, none⟩] ++
          [Tick.ok ⟨JobStatus.failed, some "volatility exited 1"⟩]) ∧
    runPidPoll
        ([Tick.ok ⟨JobStatus.running, none⟩] ++
          Tick.ok ⟨JobStatus.failed, some "volatility exited 1"⟩ ::
            [Tick.ok ⟨JobStatus.running, none⟩]) =
      runPidPoll
        ([Tick.ok ⟨JobStatus.running, none⟩] ++
          [Tick.ok ⟨JobStatus.failed, some "volatility exited 1"⟩]) ∧
    ((⟨JobStatus.failed, some "volatility exited 1"⟩ : StatusResponse).status =
        JobStatus.completed →
      runSingleLegacy
          ([Tick.ok ⟨JobStatus.running, none⟩] ++
            Tick.ok ⟨JobStatus.failed, some "volatility exited 1"⟩ ::
              [Tick.ok ⟨JobStatus.running, none⟩]) =
        runSingleLegacy
          ([Tick.ok ⟨JobStatus.running, none⟩] ++
            [Tick.ok ⟨JobStatus.failed, some "volatility exited 1"⟩])) :=
  pollers_stop_after_terminal_observation "windows.pslist.PsList"
    [Tick.ok ⟨JobStatus.running, none⟩] [Tick.ok ⟨JobStatus.running, none⟩]
    ⟨JobStatus.failed, some "volatility exited 1"⟩ (Or.inr rfl)

/-- C2: when the current `App` single-plugin poller or the per-PID poller
observes `failed` after a prefix of in-progress observations, it stops
polling (`pre.length + 1` status requests, nothing from the rest of the
trace), performs no result fetch, and signals failure carrying the
server-supplied error string — `Plugin {name} selhal: {error}` with the
fallback `Neznámá chyba` when the string is absent in the `App` poller,
and the stored `status.error` (rendered with the fallback
`Plugin selhal.`) in the per-PID poller. -/
theorem failed_observation_halts_and_reports (p : String)
    (pre post : List Tick) (e : Option String)
    (hpre : ∀ t ∈ pre, inProgressTick t = true) :
    runSingle p (pre ++ Tick.ok ⟨JobStatus.failed, e⟩ :: post) =
      { statusRequests := pre.length + 1
        resultFetches := 0
        outcome := some (SingleOutcome.errorShown
          ("Plugin " ++ lastSegment p ++ " selhal: " ++ orElseJs e "Neznámá chyba")) } ∧
    runPidPoll (pre ++ Tick.ok ⟨JobStatus.failed, e⟩ :: post) =
      { statusRequests := pre.length + 1
        resultFetches := 0
        outcome := some (PidOutcome.failed e) } := by
  constructor
  · exact runPoller_decides (singleStep p) pre post _ 0 _
      (fun x hx => (inProgress_keep p x (hpre x hx)).1) rfl
  · exact runPoller_decides pidStep pre post _ 0 _
      (fun x hx => (inProgress_keep p x (hpre x hx)).2.2) rfl

/-- C2 (witness): a plugin that fails after one in-progress tick with
`error: "volatility exited 1"`. -/
theorem failed_observation_halts_and_reports_witness :
    runSingle "windows.pslist.PsList"
        ([Tick.ok ⟨JobStatus.running, none⟩] ++
          Tick.ok ⟨JobStatus.failed, some "volatility exited 1"⟩ :: []) =
      { statusRequests := [Tick.ok ⟨JobStatus.running, none⟩].length + 1
        resultFetches := 0
        outcome := some (SingleOutcome.errorShown
          ("Plugin " ++ lastSegment "windows.pslist.PsList" ++ " selhal: "
            ++ orElseJs (some "volatility exited 1") "Neznámá chyba")) } ∧
    runPidPoll
        ([Tick.ok ⟨JobStatus.running, none⟩] ++
          Tick.ok ⟨JobStatus.failed, some "volatility exited 1"⟩ :: []) =
      { statusRequests := [Tick.ok ⟨JobStatus.running, none⟩].length + 1
        resultFetches := 0
        outcome := some (PidOutcome.failed (some "volatility exited 1")) } :=
  failed_observation_halts_and_reports "windows.pslist.PsList"
    [Tick.ok ⟨JobStatus.running, none⟩] [] (some "volatility exited 1")
    (by decide)

/-- C3 (counterexample): the per-PID poller's `catch`
(`ProcessInvestigation.tsx` ll. 103–109) discards the transport error's
message and stores the fixed string `Status check failed`: a status
request rejected with `Network Error` is not surfaced verbatim. -/
theorem pid_transport_error_not_verbatim :
    runPidPoll [Tick.rejected (some "Network Error")] =
      { statusRequests := 1
        resultFetches := 0
        outcome := some (PidOutcome.failed (some "Status check failed")) } ∧
    "Status check failed" ≠ "Network Error" :=
  ⟨rfl, by decide⟩

/-- C3 (amended): a rejected status request halts every poller variant
immediately — no further tick, no result fetch — and the `App` single,
legacy and batch pollers surface the rejection's `Error` message verbatim
(with the fallback `Chyba při kontrole stavu` when the thrown value is
not an `Error`); the per-PID poller instead records failure with the
fixed string `Status check failed`. -/
theorem transport_error_halts_pollers (p : String) (ps : List String)
    (m : Option String) (pre post : List Tick) (bpre bpost : List BatchTick)
    (hpre : ∀ t ∈ pre, inProgressTick t = true)
    (hbpre : ∀ t ∈ bpre, batchStillRunning ps t = true) :
    runSingle p (pre ++ Tick.rejected m :: post) =
      { statusRequests := pre.length + 1
        resultFetches := 0
        outcome := some (SingleOutcome.errorShown (m.getD "Chyba při kontrole stavu")) } ∧
    runSingleLegacy (pre ++ Tick.rejected m :: post) =
      { statusRequests := pre.length + 1
        resultFetches := 0
        outcome := some (SingleOutcome.errorShown (m.getD "Chyba při kontrole stavu")) } ∧
    runPidPoll (pre ++ Tick.rejected m :: post) =
      { statusRequests := pre.length + 1
        resultFetches := 0
        outcome := some (PidOutcome.failed (some "Status check failed")) } ∧
    runBatch ps (bpre ++ BatchTick.rejected m :: bpost) =
      { statusRequests := bpre.length + 1
        resultFetches := 0
        outcome := some (BatchOutcome.errorShown (m.getD "Chyba při kontrole stavu")) } := by
  refine ⟨?_, ?_, ?_, ?_⟩
  · exact runPoller_decides (singleStep p) pre post _ 0 _
      (fun x hx => (inProgress_keep p x (hpre x hx)).1) rfl
  · exact runPoller_decides legacyStep pre post _ 0 _
      (fun x hx => (inProgress_keep p x (hpre x hx)).2.1) rfl
  · exact runPoller_decides pidStep pre post _ 0 _
      (fun x hx => (inProgress_keep p x (hpre x hx)).2.2) rfl
  · exact runPoller_decides (batchStep ps) bpre bpost _ 0 _
      (fun x hx => batchStillRunning_keep ps x (hbpre x hx)) rfl

/-- C3 (witness): the network drops mid-poll after one in-progress tick;
every variant halts with one more request and no fetch. -/
theorem transport_error_halts_pollers_witness :
    runSingle "windows.pslist.PsList"
        ([Tick.ok ⟨JobStatus.running, none⟩] ++
          Tick.rejected (some "Network Error") :: []) =
      { statusRequests := [Tick.ok ⟨JobStatus.running, none⟩].length + 1
        resultFetches := 0
        outcome := some (SingleOutcome.errorShown
          ((some "Network Error").getD "Chyba při kontrole stavu")) } ∧
    runSingleLegacy
        ([Tick.ok ⟨JobStatus.running, none⟩] ++
          Tick.rejected (some "Network Error") :: []) =
      { statusRequests := [Tick.ok ⟨JobStatus.running, none⟩].length + 1
        resultFetches := 0
        outcome := some (SingleOutcome.errorShown
          ((some "Network Error").getD "Chyba při kontrole stavu")) } ∧
    runPidPoll
        ([Tick.ok ⟨JobStatus.running, none⟩] ++
          Tick.rejected (some "Network Error") :: []) =
      { statusRequests := [Tick.ok ⟨JobStatus.running, none⟩].length + 1
        resultFetches := 0
        outcome := some (PidOutcome.failed (some "Status check failed")) } ∧
    runBatch ["windows.pslist.PsList"]
        ([BatchTick.ok [("windows.pslist.PsList", JobStatus.running)]] ++
          BatchTick.rejected (some "Network Error") :: []) =
      { statusRequests :=
          [BatchTick.ok [("windows.pslist.PsList", JobStatus.running)]].length + 1
        resultFetches := 0
        outcome := some (BatchOutcome.errorShown
          ((some "Network Error").getD "Chyba při kontrole stavu")) } :=
  transport_error_halts_pollers "windows.pslist.PsList"
    ["windows.pslist.PsList"] (some "Network Error")
    [Tick.ok ⟨JobStatus.running, none⟩] []
    [BatchTick.ok [("windows.pslist.PsList", JobStatus.running)]] []
    (by decide) (by decide)

/-- C4: over a batch run whose earlier ticks all left some member
non-terminal, the deciding aggregate observation makes the poller show
the aggregate failure `Všechny pluginy selhaly.` exactly when every
member is terminal and the number of `completed` members is zero. -/
theorem aggregate_failure_iff_no_member_completed (ps : List String)
    (bpre : List BatchTick) (resp : List (String × JobStatus))
    (hpre : ∀ t ∈ bpre, batchStillRunning ps t = true) :
    ((runBatch ps (bpre ++ [BatchTick.ok resp])).outcome =
        some (BatchOutcome.errorShown "Všechny pluginy selhaly.") ↔
      (allDone ps resp = true ∧ completedCount ps resp = 0)) := by
  have hkeep : ∀ x ∈ bpre, batchStep ps x = StepResult.keepPolling :=
    fun x hx => batchStillRunning_keep ps x (hpre x hx)
  by_cases hall : allDone ps resp = true
  · cases hfind : firstCompleted ps resp with
    | some entry =>
      have hstep : batchStep ps (BatchTick.ok resp) =
          StepResult.halt 1 (BatchOutcome.resultsShown entry.plugin) := by
        simp [batchStep, hall, hfind]
      rw [runBatch, runPoller_decides (batchStep ps) bpre [] _ 1 _ hkeep hstep]
      simp [hall, completedCount_zero_iff, hfind]
    | none =>
      have hstep : batchStep ps (BatchTick.ok resp) =
          StepResult.halt 0 (BatchOutcome.errorShown "Všechny pluginy selhaly.") := by
        simp [batchStep, hall, hfind]
      rw [runBatch, runPoller_decides (batchStep ps) bpre [] _ 0 _ hkeep hstep]
      simp [hall, completedCount_zero_iff, hfind]
  · have hstep : batchStep ps (BatchTick.ok resp) = StepResult.keepPolling := by
      simp [batchStep, hall]
    have hkeep' : ∀ x ∈ bpre ++ [BatchTick.ok resp],
        batchStep ps x = StepResult.keepPolling := by
      intro x hx
      rcases List.mem_append.mp hx with hx | hx
      · exact hkeep x hx
      · rw [List.mem_singleton] at hx
        rw [hx]
        exact hstep
    rw [runBatch, runPoller_all_keep _ _ hkeep']
    simp [hall]

/-- C4 (witness): a batch of two plugins that both fail — the aggregate
failure condition holds and the failure banner is shown. -/
theorem aggregate_failure_iff_no_member_completed_witness :
    ((runBatch ["windows.pslist.PsList", "windows.netscan.NetScan"]
        ([] ++ [BatchTick.ok
          [("windows.pslist.PsList", JobStatus.failed),
            ("windows.netscan.NetScan", JobStatus.failed)]])).outcome =
        some (BatchOutcome.errorShown "Všechny pluginy selhaly.") ↔
      (allDone ["windows.pslist.PsList", "windows.netscan.NetScan"]
          [("windows.pslist.PsList", JobStatus.failed),
            ("windows.netscan.NetScan", JobStatus.failed)] = true ∧
        completedCount ["windows.pslist.PsList", "windows.netscan.NetScan"]
          [("windows.pslist.PsList", JobStatus.failed),
            ("windows.netscan.NetScan", JobStatus.failed)] = 0)) :=
  aggregate_failure_iff_no_member_completed
    ["windows.pslist.PsList", "windows.netscan.NetScan"] []
    [("windows.pslist.PsList", JobStatus.failed),
      ("windows.netscan.NetScan", JobStatus.failed)]
    (by decide)

/-- C5: as long as every aggregate observation leaves some member
non-terminal, the batch poller resolves nothing — one status request per
tick, no result fetch, no success and no failure — whatever interleaving
of member states the responses report. -/
theorem batch_waits_for_slowest_member (ps : List String)
    (ticks : List BatchTick)
    (h : ∀ t ∈ ticks, ∃ resp, t = BatchTick.ok resp ∧ allDone ps resp = false) :
    runBatch ps ticks =
      { statusRequests := ticks.length, resultFetches := 0, outcome := none } := by
  refine runPoller_all_keep (batchStep ps) ticks (fun t ht => ?_)
  obtain ⟨resp, hrt, hfalse⟩ := h t ht
  rw [hrt]
  simp [batchStep, hfalse]

/-- C5 (witness): one member already `completed`, the other still absent
from the report — the batch keeps polling and fetches nothing. -/
theorem batch_waits_for_slowest_member_witness :
    runBatch ["windows.pslist.PsList", "windows.netscan.NetScan"]
        [BatchTick.ok [("windows.pslist.PsList", JobStatus.completed)]] =
      { statusRequests :=
          [BatchTick.ok [("windows.pslist.PsList", JobStatus.completed)]].length
        resultFetches := 0
        outcome := none } :=
  batch_waits_for_slowest_member
    ["windows.pslist.PsList", "windows.netscan.NetScan"]
    [BatchTick.ok [("windows.pslist.PsList", JobStatus.completed)]]
    (by
      intro t ht
      rw [List.mem_singleton] at ht
      exact ⟨_, ht, by decide⟩)

/-- C6: when the deciding aggregate observation has every member terminal
and at least one member `completed`, the batch poller stops, fetches
exactly one result set, and the shown plugin is the first `completed`
member in the order the caller supplied the plugin list: the list splits
around the chosen plugin with no `completed` member before it. -/
theorem batch_selects_first_completed_in_caller_order (ps : List String)
    (bpre bpost : List BatchTick) (resp : List (String × JobStatus))
    (hpre : ∀ t ∈ bpre, batchStillRunning ps t = true)
    (hall : allDone ps resp = true) (q : String) (hq : q ∈ ps)
    (hc : memberStatus resp q = JobStatus.completed) :
    ∃ chosen ps₁ ps₂,
      runBatch ps (bpre ++ BatchTick.ok resp :: bpost) =
        { statusRequests := bpre.length + 1
          resultFetches := 1
          outcome := some (BatchOutcome.resultsShown chosen) } ∧
      memberStatus resp chosen = JobStatus.completed ∧
      ps = ps₁ ++ chosen :: ps₂ ∧
      ∀ p ∈ ps₁, memberStatus resp p ≠ JobStatus.completed := by
  obtain ⟨chosen, ps₁, ps₂, hfind, hcc, hsplit, hnone⟩ :=
    firstCompleted_first_in_order ps resp q hq hc
  refine ⟨chosen, ps₁, ps₂, ?_, hcc, hsplit, hnone⟩
  have hstep : batchStep ps (BatchTick.ok resp) =
      StepResult.halt 1 (BatchOutcome.resultsShown chosen) := by
    simp [batchStep, hall, hfind]
  exact runPoller_decides (batchStep ps) bpre bpost _ 1 _
    (fun x hx => batchStillRunning_keep ps x (hpre x hx)) hstep

/-- C6 (witness): a batch of two plugins where the first fails and the
second completes — the second is selected as the first completed member
in caller order. -/
theorem batch_selects_first_completed_in_caller_order_witness :
    ∃ chosen ps₁ ps₂,
      runBatch ["windows.pslist.PsList", "windows.netscan.NetScan"]
          ([] ++ BatchTick.ok
            [("windows.pslist.PsList", JobStatus.failed),
              ("windows.netscan.NetScan", JobStatus.completed)] :: []) =
        { statusRequests := ([] : List BatchTick).length + 1
          resultFetches := 1
          outcome := some (BatchOutcome.resultsShown chosen) } ∧
      memberStatus
          [("windows.pslist.PsList", JobStatus.failed),
            ("windows.netscan.NetScan", JobStatus.completed)] chosen =
        JobStatus.completed ∧
      ["windows.pslist.PsList", "windows.netscan.NetScan"] =
        ps₁ ++ chosen :: ps₂ ∧
      ∀ p ∈ ps₁,
        memberStatus
            [("windows.pslist.PsList", JobStatus.failed),
              ("windows.netscan.NetScan", JobStatus.completed)] p ≠
          JobStatus.completed :=
  batch_selects_first_completed_in_caller_order
    ["windows.pslist.PsList", "windows.netscan.NetScan"] [] []
    [("windows.pslist.PsList", JobStatus.failed),
      ("windows.netscan.NetScan", JobStatus.completed)]
    (by decide) (by decide) "windows.netscan.NetScan" (by decide) (by decide)

/-- C7: every poller variant performs at most one automatic result fetch
over any run — the loop halts at its first decisive observation, and no
decisive observation triggers more than one fetch. -/
theorem at_most_one_automatic_result_fetch (p : String) (ps : List String)
    (ticks : List Tick) (bticks : List BatchTick) :
    (runSingle p ticks).resultFetches ≤ 1 ∧
    (runSingleLegacy ticks).resultFetches ≤ 1 ∧
    (runPidPoll ticks).resultFetches ≤ 1 ∧
    (runBatch ps bticks).resultFetches ≤ 1 := by
  refine ⟨?_, ?_, ?_, ?_⟩
  · refine runPoller_fetches_le_one _ _ (fun t => ?_)
    cases t with
    | rejected m => simp [singleStep, StepResult.fetchCount]
    | ok r => cases hr : r.status <;> simp [singleStep, hr, StepResult.fetchCount]
  · refine runPoller_fetches_le_one _ _ (fun t => ?_)
    cases t with
    | rejected m => simp [legacyStep, StepResult.fetchCount]
    | ok r => cases hr : r.status <;> simp [legacyStep, hr, StepResult.fetchCount]
  · refine runPoller_fetches_le_one _ _ (fun t => ?_)
    cases t with
    | rejected m => simp [pidStep, StepResult.fetchCount]
    | ok r => cases hr : r.status <;> simp [pidStep, hr, StepResult.fetchCount]
  · refine runPoller_fetches_le_one _ _ (fun t => ?_)
    cases t with
    | rejected m => simp [batchStep, StepResult.fetchCount]
    | ok resp =>
      by_cases hall : allDone ps resp = true
      · cases hfind : firstCompleted ps resp <;>
          simp [batchStep, hall, hfind, StepResult.fetchCount]
      · simp [batchStep, hall, StepResult.fetchCount]

/-- C8 (counterexample): the previously held state is not always left
unchanged on an optional-feature failure — a failed project-list load
resets the list to `[]` (`App.tsx` l. 53), and a failed correlation
lookup clears the panel to `null` (`ResultsGrid.tsx` l. 68); here both
differ from the previously held state. -/
theorem optional_failure_discards_previous_state :
    (loadProjects ["memdump-01"] (Except.error (some "Network Error"))).newState
        = [] ∧
    ([] : List String) ≠ ["memdump-01"] ∧
    (handleCellClicked (some ⟨1234⟩)
        (Except.error (some "Network Error"))).newState = none ∧
    (none : Option CorrelationResponse) ≠ some ⟨1234⟩ :=
  ⟨rfl, by decide, rfl, by simp⟩

/-- C8 (amended): every failure of an optional feature request is
swallowed silently — none of the three handlers raises a UI error — and
the tracked-PID refresh keeps the previous list, but a failed
project-list load resets the list to empty and a failed correlation
lookup clears the correlation panel. -/
theorem optional_feature_failures_silent (previousProjects : List String)
    (previousPids : List Nat)
    (previousCorrelation : Option CorrelationResponse) (e : Option String) :
    loadProjects previousProjects (Except.error e) =
      { newState := [], uiError := none } ∧
    refreshTrackedPids previousPids (Except.error e) =
      { newState := previousPids, uiError := none } ∧
    handleCellClicked previousCorrelation (Except.error e) =
      { newState := none, uiError := none } :=
  ⟨rfl, rfl, rfl⟩

/-- C9: for a non-empty result set, the displayed column set of both
tabular views is derived from the key set of the first row alone — rows
beyond the first contribute nothing — and a key is a column exactly when
it is a key of the first row surviving the view's filter (`__children`
dropped by the grid; `__children` and underscore-prefixed keys dropped by
the per-PID table). -/
theorem columns_derived_from_first_row (r : Row) (rest rest' : List Row)
    (c : String) :
    resultsGridColumnFields (r :: rest) = resultsGridColumnFields (r :: rest') ∧
    (c ∈ resultsGridColumnFields (r :: rest) ↔
      c ∈ rowKeys r ∧ c ≠ "__children") ∧
    perPidColumnKeys (r :: rest) = perPidColumnKeys (r :: rest') ∧
    (c ∈ perPidColumnKeys (r :: rest) ↔
      c ∈ rowKeys r ∧ c ≠ "__children" ∧ c.startsWith "_" = false) := by
  refine ⟨rfl, ?_, rfl, ?_⟩
  · simp [resultsGridColumnFields, List.mem_filter]
  · simp [perPidColumnKeys, List.mem_filter, and_assoc]

/-- C10: a selected plugin absent from the aggregate response map is
given status `not_started`; `not_started` is not terminal, so while every
observed response omits some selected plugin the batch resolves nothing —
no fetch, no success, no failure, one status request per tick. -/
theorem missing_plugin_defaults_and_blocks (ps : List String) (q : String)
    (ticks : List BatchTick) (hq : q ∈ ps)
    (h : ∀ t ∈ ticks, ∃ resp, t = BatchTick.ok resp ∧ List.lookup q resp = none) :
    (∀ resp, List.lookup q resp = none →
      memberStatus resp q = JobStatus.not_started) ∧
    runBatch ps ticks =
      { statusRequests := ticks.length, resultFetches := 0, outcome := none } := by
  constructor
  · intro resp hnone
    simp [memberStatus, hnone]
  · refine runPoller_all_keep (batchStep ps) ticks (fun t ht => ?_)
    obtain ⟨resp, hrt, hnone⟩ := h t ht
    have hms : memberStatus resp q = JobStatus.not_started := by
      simp [memberStatus, hnone]
    have hfalse : allDone ps resp = false :=
      allDone_false_of_member ps resp q hq (by rw [hms]; rfl)
    rw [hrt]
    simp [batchStep, hfalse]

/-- C10 (witness): a selected plugin missing from the only observed
aggregate response — the batch keeps polling. -/
theorem missing_plugin_defaults_and_blocks_witness :
    (∀ resp, List.lookup "windows.netscan.NetScan" resp = none →
      memberStatus resp "windows.netscan.NetScan" = JobStatus.not_started) ∧
    runBatch ["windows.pslist.PsList", "windows.netscan.NetScan"]
        [BatchTick.ok [("windows.pslist.PsList", JobStatus.completed)]] =
      { statusRequests :=
          [BatchTick.ok [("windows.pslist.PsList", JobStatus.completed)]].length
        resultFetches := 0
        outcome := none } :=
  missing_plugin_defaults_and_blocks
    ["windows.pslist.PsList", "windows.netscan.NetScan"]
    "windows.netscan.NetScan"
    [BatchTick.ok [("windows.pslist.PsList", JobStatus.completed)]]
    (by decide)
    (by
      intro t ht
      rw [List.mem_singleton] at ht
      exact ⟨_, ht, by decide⟩)

end VTF
